import Mathlib

/-!
Verification of the pattern-redaction processor in src/patternred.py.

Python strings are embedded as lists of characters.  The per-match
replacement function (source name `partial_mask`, lines 83-94) is embedded
as `maskMatch`; Python slicing and string repetition are modelled by
`pyTail` and `pyRepeat` with exact Python semantics, including the fact
that `s[-0:]` is the whole string.
-/

namespace PatternRed

/-- Python strings, embedded as lists of characters. -/
abbrev Str := List Char

/-- Python `s * n` for a string `s` and non-negative integer `n`:
the string repeated `n` times. -/
def pyRepeat (s : Str) (n : Nat) : Str :=
  (List.replicate n s).flatten

/-- Python `s[-n:]` for a non-negative integer `n`: when `n = 0` this is
`s[0:]`, the WHOLE string; when `n ≥ 1` it is the last `min n (length s)`
characters. -/
def pyTail (s : Str) (n : Nat) : Str :=
  if n = 0 then s else s.drop (s.length - n)

/-- The per-match replacement closure of `mask_matches`
(source name is with an underscore, src/patternred.py lines 83-94):
fully mask short matches, otherwise keep `reveal_start` leading characters,
mask the middle, and append Python `matched_text[-reveal_end:]`. -/
def maskMatch (matched_text : Str) (reveal_start reveal_end : Nat) (placeholder : Str) : Str :=
  let length := matched_text.length
  if length ≤ reveal_start + reveal_end then
    pyRepeat placeholder length
  else
    let visible_start := matched_text.take reveal_start
    let visible_end := pyTail matched_text reveal_end
    let masked_part := pyRepeat placeholder (length - (reveal_start + reveal_end))
    visible_start ++ masked_part ++ visible_end

theorem pyRepeat_length (s : Str) (n : Nat) : (pyRepeat s n).length = n * s.length := by
  induction n with
  | zero => simp [pyRepeat]
  | succ k ih =>
    unfold pyRepeat at ih ⊢
    rw [List.replicate_succ, List.flatten_cons, List.length_append, ih, Nat.succ_mul]
    omega

/-- Claim C1: refuted evaluation.  At the match "a@b.com" (length 7) with
reveal_start = 0, reveal_end = 0 and placeholder "*", the replacement
produced by the code has length 14, not 7: it is the full mask followed by
the entire original match, because Python `matched_text[-0:]` is the whole
string.  So the replacement is not length preserving. -/
theorem C1_length_not_preserved :
    (maskMatch ("a@b.com".toList) 0 0 ['*']).length = 14
    ∧ ("a@b.com".toList).length = 7
    ∧ maskMatch ("a@b.com".toList) 0 0 ['*'] = "*******a@b.com".toList := by
  refine ⟨?_, ?_, ?_⟩ <;> decide

/-- Claim C3: whenever reveal_end = 0 and the match is strictly longer than
reveal_start, the replacement is the first reveal_start characters, then
length - reveal_start placeholder copies, then the ENTIRE original match;
for a placeholder of length 1 the replacement has length twice the match
length, and the full matched text appears unmasked as a suffix. -/
theorem C3_reveal_end_zero (m : Str) (rs : Nat) (ph : Str) (h : rs < m.length) :
    maskMatch m rs 0 ph = m.take rs ++ pyRepeat ph (m.length - rs) ++ m
    ∧ (ph.length = 1 → (maskMatch m rs 0 ph).length = 2 * m.length)
    ∧ (∃ pre, maskMatch m rs 0 ph = pre ++ m) := by
  have hgt : ¬ (m.length ≤ rs + 0) := by omega
  have heq : maskMatch m rs 0 ph = m.take rs ++ pyRepeat ph (m.length - rs) ++ m := by
    simp only [maskMatch, pyTail]
    rw [if_neg hgt]
    simp
  refine ⟨heq, ?_, ⟨m.take rs ++ pyRepeat ph (m.length - rs), by rw [heq, List.append_assoc]⟩⟩
  intro hph
  rw [heq]
  simp only [List.length_append, List.length_take, pyRepeat_length, hph, Nat.mul_one]
  omega

/-- Witness for C3 at the concrete match "a@b.com", reveal_start = 2,
placeholder "*". -/
theorem C3_witness :
    maskMatch ("a@b.com".toList) 2 0 ['*']
      = ("a@b.com".toList).take 2 ++ pyRepeat ['*'] (("a@b.com".toList).length - 2)
          ++ "a@b.com".toList
    ∧ (maskMatch ("a@b.com".toList) 2 0 ['*']).length = 14 := by
  have h := C3_reveal_end_zero ("a@b.com".toList) 2 ['*'] (by decide)
  exact ⟨h.1, by rw [h.2.1 rfl]; decide⟩

/-- Claim C4: a match no longer than reveal_start + reveal_end is replaced
by the placeholder repeated exactly the match length, with no character of
the match revealed. -/
theorem C4_full_mask (m : Str) (rs rend : Nat) (ph : Str) (h : m.length ≤ rs + rend) :
    maskMatch m rs rend ph = pyRepeat ph m.length := by
  simp only [maskMatch, if_pos h]

/-- Witness for C4: the match "abc" is fully masked with reveal_start =
reveal_end = 2, and also when reveal_start = 5 alone is at least the match
length (with reveal_end = 0). -/
theorem C4_witness :
    maskMatch ("abc".toList) 2 2 ['*'] = pyRepeat ['*'] (("abc".toList).length)
    ∧ maskMatch ("abc".toList) 5 0 ['*'] = pyRepeat ['*'] (("abc".toList).length) :=
  ⟨C4_full_mask ("abc".toList) 2 2 ['*'] (by decide),
   C4_full_mask ("abc".toList) 5 0 ['*'] (by decide)⟩

/-!
A Python `re` model (the `re` module is a Python standard-library
dependency, not repository code; its behaviour on the constructs the rules
use is modelled here: leftmost scanning, greedy backtracking alternatives
tried left to right, non-overlapping substitution).
-/

/-- Regular-expression abstract syntax: `cls neg ranges` is a character
class given by inclusive ranges, negated when `neg` is true; `eps` the
empty regex, `cat` concatenation, `alt` prioritised alternation, `star`
greedy Kleene star. -/
inductive Regex where
  | eps : Regex
  | cls : Bool → List (Char × Char) → Regex
  | cat : Regex → Regex → Regex
  | alt : Regex → Regex → Regex
  | star : Regex → Regex
  deriving DecidableEq

/-- Number of syntax nodes, used only to bound matcher fuel. -/
def reSize : Regex → Nat
  | .eps => 1
  | .cls _ _ => 1
  | .cat a b => reSize a + reSize b + 1
  | .alt a b => reSize a + reSize b + 1
  | .star a => reSize a + 1

/-- Whether a character is accepted by a class. -/
def charMatch (neg : Bool) (ranges : List (Char × Char)) (c : Char) : Bool :=
  let inSet := ranges.any (fun p => decide (p.1 ≤ c) && decide (c ≤ p.2))
  if neg then !inSet else inSet

/-- Backtracking matcher: all suffixes remaining after the regex matches a
prefix of the input, in Python priority order (greedy star first,
alternation left first).  Star only repeats on strict progress, as Python
does for empty-width loop bodies.  Fuel only bounds the recursion; it is
chosen large enough by `tryMatch` below. -/
def mtch : Nat → Regex → Str → List Str
  | 0, _, _ => []
  | _ + 1, .eps, s => [s]
  | _ + 1, .cls _ _, [] => []
  | _ + 1, .cls neg ranges, c :: rest => if charMatch neg ranges c then [rest] else []
  | f + 1, .cat r1 r2, s => (mtch f r1 s).flatMap (fun t => mtch f r2 t)
  | f + 1, .alt r1 r2, s => mtch f r1 s ++ mtch f r2 s
  | f + 1, .star r, s =>
      ((mtch f r s).filter (fun t => t.length < s.length)).flatMap
        (fun t => mtch f (.star r) t) ++ [s]

/-- Fuel that is always sufficient for `mtch` on the given inputs. -/
def matchFuel (r : Regex) (s : Str) : Nat :=
  (reSize r + 2) * (2 * s.length + 2) + 2

/-- Python match attempt at the start of `s`: the first success in
backtracking order, returned as (matched prefix, remaining suffix). -/
def tryMatch (r : Regex) (s : Str) : Option (Str × Str) :=
  match mtch (matchFuel r s) r s with
  | [] => none
  | t :: _ => some (s.take (s.length - t.length), t)

/-- One left-to-right substitution pass of `pattern.sub(partial_mask,
content)` (src/patternred.py line 99): at each position try the pattern;
on a match emit the `maskMatch` replacement and continue after the match
(an empty match emits its replacement and copies one character).  The fuel
argument starts at `s.length + 1` and every step consumes input, so it
never runs out. -/
def subGo (r : Regex) (rs rend : Nat) (ph : Str) : Nat → Str → Str
  | 0, s => s
  | f + 1, s =>
    match tryMatch r s with
    | none =>
      match s with
      | [] => []
      | c :: s' => c :: subGo r rs rend ph f s'
    | some (m, rest) =>
      if m = [] then
        match s with
        | [] => []
        | c :: s' => maskMatch m rs rend ph ++ c :: subGo r rs rend ph f s'
      else
        maskMatch m rs rend ph ++ subGo r rs rend ph f rest

/-- Python `pattern.sub(partial_mask, content)`: replace every
non-overlapping leftmost-first match of `r` in `s` with its partial mask. -/
def pySub (r : Regex) (rs rend : Nat) (ph : Str) (s : Str) : Str :=
  subGo r rs rend ph (s.length + 1) s

/-!
`re.compile`, modelled as a parser for the regex constructs the rules use
(character classes, escapes, groups, alternation, the `*` `+` `?` `{n}`
`{n,}` `{n,m}` quantifiers).  Parse failure models the `re.error`
exception; unsupported constructs are rejected conservatively.
-/

/-- Read a non-empty run of decimal digits. -/
def readNum (s : Str) : Option (Nat × Str) :=
  let ds := s.takeWhile Char.isDigit
  if ds.isEmpty then none
  else some (ds.foldl (fun a c => a * 10 + (c.toNat - 48)) 0, s.drop ds.length)

/-- The ASCII ranges of Python `\s`. -/
def wsRanges : List (Char × Char) :=
  [(' ', ' '), ('\t', '\t'), ('\n', '\n'), ('\r', '\r'), ('\x0b', '\x0b'), ('\x0c', '\x0c')]

/-- The ranges of Python `\d`. -/
def digitRanges : List (Char × Char) := [('0', '9')]

/-- The ASCII ranges of Python `\w`. -/
def wordRanges : List (Char × Char) := [('a', 'z'), ('A', 'Z'), ('0', '9'), ('_', '_')]

/-- An escape `\c` outside a character class. -/
def escClass (c : Char) : Option Regex :=
  if c = 'd' then some (.cls false digitRanges)
  else if c = 'D' then some (.cls true digitRanges)
  else if c = 's' then some (.cls false wsRanges)
  else if c = 'S' then some (.cls true wsRanges)
  else if c = 'w' then some (.cls false wordRanges)
  else if c = 'W' then some (.cls true wordRanges)
  else if c.isAlphanum then none
  else some (.cls false [(c, c)])

/-- An escape `\c` inside a character class, as ranges. -/
def setEsc (c : Char) : Option (List (Char × Char)) :=
  if c = 'd' then some digitRanges
  else if c = 's' then some wsRanges
  else if c = 'w' then some wordRanges
  else if c.isAlphanum then none
  else some [(c, c)]

/-- Items of a character class up to the closing bracket; a trailing `-`
and a `-` before the closing bracket are literals. -/
def parseSetBody : Nat → Str → List (Char × Char) → Option (List (Char × Char) × Str)
  | 0, _, _ => none
  | f + 1, s, acc =>
    match s with
    | [] => none
    | ']' :: rest => some (acc.reverse, rest)
    | '\\' :: c :: rest =>
      match setEsc c with
      | some ranges => parseSetBody f rest (ranges.reverse ++ acc)
      | none => none
    | '\\' :: [] => none
    | a :: '-' :: b :: rest =>
      if b = ']' then parseSetBody f ('-' :: b :: rest) ((a, a) :: acc)
      else if b = '\\' then none
      else parseSetBody f rest ((a, b) :: acc)
    | a :: rest => parseSetBody f rest ((a, a) :: acc)

/-- A character class after its opening bracket: optional negation, a
leading `]` is a literal member. -/
def parseSet (f : Nat) (s : Str) : Option (Regex × Str) :=
  let p1 := match s with
    | '^' :: rest => (true, rest)
    | _ => (false, s)
  let p2 := match p1.2 with
    | ']' :: rest => ([((']' : Char), (']' : Char))], rest)
    | _ => (([] : List (Char × Char)), p1.2)
  match parseSetBody f p2.2 p2.1 with
  | some (ranges, rest) => some (Regex.cls p1.1 ranges, rest)
  | none => none

/-- `r` repeated exactly `n` times. -/
def npow (r : Regex) : Nat → Regex
  | 0 => .eps
  | n + 1 => .cat r (npow r n)

/-- `r` repeated at most `n` times, greedily. -/
def upto (r : Regex) : Nat → Regex
  | 0 => .eps
  | n + 1 => .alt (.cat r (upto r n)) .eps

/-- An optional quantifier after an atom; an invalid `{...}` is left in
place (Python treats a brace that is not a quantifier as a literal). -/
def parseQuant (r : Regex) (s : Str) : Regex × Str :=
  match s with
  | '*' :: rest => (.star r, rest)
  | '+' :: rest => (.cat r (.star r), rest)
  | '?' :: rest => (.alt r .eps, rest)
  | '{' :: rest =>
    match readNum rest with
    | none => (r, s)
    | some (n, s1) =>
      match s1 with
      | '}' :: s2 => (npow r n, s2)
      | ',' :: '}' :: s2 => (.cat (npow r n) (.star r), s2)
      | ',' :: s2 =>
        match readNum s2 with
        | some (m, '}' :: s3) => if n ≤ m then (.cat (npow r n) (upto r (m - n)), s3) else (r, s)
        | _ => (r, s)
      | _ => (r, s)
  | _ => (r, s)

mutual

/-- Alternation level of the pattern grammar. -/
def parseAlt : Nat → Str → Option (Regex × Str)
  | 0, _ => none
  | f + 1, s =>
    match parseCat f s with
    | none => none
    | some (r, s1) =>
      match s1 with
      | '|' :: rest =>
        match parseAlt f rest with
        | some (r2, s2) => some (Regex.alt r r2, s2)
        | none => none
      | _ => some (r, s1)

/-- Concatenation level: as many quantified atoms as possible. -/
def parseCat : Nat → Str → Option (Regex × Str)
  | 0, _ => none
  | f + 1, s =>
    match parseRep f s with
    | none => some (Regex.eps, s)
    | some (r, s1) =>
      match parseCat f s1 with
      | some (r2, s2) => some (Regex.cat r r2, s2)
      | none => none

/-- One atom with its optional quantifier. -/
def parseRep : Nat → Str → Option (Regex × Str)
  | 0, _ => none
  | f + 1, s =>
    match parseAtom f s with
    | none => none
    | some (r, s1) => some (parseQuant r s1)

/-- One atom: group, class, escape, dot or literal character; anchors and
the non-grouping extensions other than `(?:` are rejected. -/
def parseAtom : Nat → Str → Option (Regex × Str)
  | 0, _ => none
  | f + 1, s =>
    match s with
    | '(' :: '?' :: ':' :: rest =>
      match parseAlt f rest with
      | some (r, ')' :: s2) => some (r, s2)
      | _ => none
    | '(' :: '?' :: _ => none
    | '(' :: rest =>
      match parseAlt f rest with
      | some (r, ')' :: s2) => some (r, s2)
      | _ => none
    | '[' :: rest => parseSet f rest
    | '\\' :: c :: rest =>
      match escClass c with
      | some r => some (r, rest)
      | none => none
    | '\\' :: [] => none
    | '.' :: rest => some (Regex.cls true [('\n', '\n')], rest)
    | c :: rest =>
      if c = ')' ∨ c = '|' ∨ c = '*' ∨ c = '+' ∨ c = '?' ∨ c = '^' ∨ c = '$' then none
      else some (Regex.cls false [(c, c)], rest)
    | [] => none

end

/-- `re.compile(pattern)` (src/patternred.py line 96): parse the whole
pattern string; `none` models a raised `re.error`. -/
def compile (p : Str) : Option Regex :=
  match parseAlt (8 * p.length + 16) p with
  | some (r, []) => some r
  | _ => none

/-- The compilation of every pattern, in list order, as performed by the
comprehension on src/patternred.py line 96; the first failure aborts. -/
def compileAll : List Str → Option (List Regex)
  | [] => some []
  | p :: ps =>
    match compile p with
    | none => none
    | some r =>
      match compileAll ps with
      | none => none
      | some rest => some (r :: rest)

/-- `mask_matches` (src/patternred.py lines 73-101): compile all patterns,
then apply each pattern's substitution in list order, each on the output
of the previous one.  `none` models the `re.error` raised by compilation. -/
def mask_matches (content : Str) (patterns : List Str)
    (reveal_start reveal_end : Nat) (placeholder : Str) : Option Str :=
  match compileAll patterns with
  | none => none
  | some compiled =>
    some (compiled.foldl (fun c r => pySub r reveal_start reveal_end placeholder c) content)

/-- The configuration data validated for the processor
(`PatternRedactorParameters`, src/patternred.py lines 16-57). -/
structure PatternRedactorParameters where
  rules : List Str
  debug_echo : Bool
  placeholder : Str
  reveal_start : Nat
  reveal_end : Nat
  deriving DecidableEq

/-- Configuration validation (src/patternred.py lines 16-57): the
parameters class declares `rules` as a plain list of strings with no
regex validator, so pydantic validation only checks types and never
compiles a pattern; construction of a well-typed configuration always
succeeds and raises no regex error. -/
def mkParameters (rules : List Str) (debug_echo : Bool) (placeholder : Str)
    (reveal_start reveal_end : Nat) : Option PatternRedactorParameters :=
  some ⟨rules, debug_echo, placeholder, reveal_start, reveal_end⟩

/-- The email rule shipped in the default rule list
(src/patternred.py line 34). -/
def emailPattern : Str := "[a-zA-Z0-9._%+-]+@[a-zA-Z0-9.-]+\\.[a-zA-Z]{2,}".toList

/-- Claim C2: refuted evaluation.  On Scenario 2's input with the email
rule, reveal_start = 0 and reveal_end = 0, `mask_matches` does not return
"contact ******* now": the whole matched address survives after the mask,
because the replacement ends with Python `matched_text[-0:]`, the entire
match. -/
theorem C2_scenario2 :
    mask_matches ("contact a@b.com now".toList) [emailPattern] 0 0 ['*']
      = some ("contact *******a@b.com now".toList)
    ∧ mask_matches ("contact a@b.com now".toList) [emailPattern] 0 0 ['*']
      ≠ some ("contact ******* now".toList) := by
  constructor <;> decide

/-- Claim C5: the patterns are applied strictly in list order, the
substitution for the head pattern running on the current text and the
remaining patterns running on its output; compilation failure of any
pattern aborts the whole call. -/
theorem C5_sequential (text p : Str) (rest : List Str) (rs rend : Nat) (ph : Str) :
    mask_matches text (p :: rest) rs rend ph
      = (compile p).bind (fun r => mask_matches (pySub r rs rend ph text) rest rs rend ph) := by
  unfold mask_matches
  simp only [compileAll]
  cases hc : compile p with
  | none => simp
  | some r =>
    cases hr : compileAll rest with
    | none => simp
    | some cs => simp [List.foldl_cons]

/-- A single substitution pass on the empty string yields the empty
string, whatever the pattern: either there is no match, or the match is
empty and is replaced by the empty full mask. -/
theorem pySub_nil (r : Regex) (rs rend : Nat) (ph : Str) : pySub r rs rend ph [] = [] := by
  unfold pySub subGo tryMatch
  cases mtch (matchFuel r []) r [] with
  | nil => rfl
  | cons t ts => simp

theorem foldl_pySub_nil (rs rend : Nat) (ph : Str) :
    ∀ compiled : List Regex,
      compiled.foldl (fun c r => pySub r rs rend ph c) [] = [] := by
  intro compiled
  induction compiled with
  | nil => rfl
  | cons r cs ih => simp only [List.foldl_cons, pySub_nil, ih]

/-- Compilation of a rule list fails exactly when some rule fails to
compile. -/
theorem compileAll_eq_none_iff :
    ∀ rules : List Str, compileAll rules = none ↔ ∃ p ∈ rules, compile p = none := by
  intro rules
  induction rules with
  | nil => simp [compileAll]
  | cons q qs ih =>
    simp only [compileAll, List.mem_cons]
    cases hq : compile q with
    | none =>
      constructor
      · intro _; exact ⟨q, Or.inl rfl, hq⟩
      · intro _; rfl
    | some r =>
      cases hqs : compileAll qs with
      | none =>
        constructor
        · intro _
          obtain ⟨p, hp, hcp⟩ := ih.mp hqs
          exact ⟨p, Or.inr hp, hcp⟩
        · intro _; rfl
      | some cs =>
        constructor
        · intro hcon; exact absurd hcon (by simp)
        · rintro ⟨p, hp | hp, hcp⟩
          · rw [hp, hq] at hcp; exact absurd hcp (by simp)
          · have h2 := ih.mpr ⟨p, hp, hcp⟩
            rw [h2] at hqs; exact absurd hqs (by simp)

/-- Claim C9: refuting evaluation.  The rule "(" is not a valid regular
expression, yet configuration validation accepts it without error;
the regex error surfaces only when `mask_matches` is invoked on a text,
i.e. while a request is being processed, because patterns are compiled
inside `mask_matches` (src/patternred.py line 96), not at configuration
time. -/
theorem C9_counterexample :
    mkParameters ["(".toList] false ['*'] 2 2
      = some ⟨["(".toList], false, ['*'], 2, 2⟩
    ∧ compile ("(".toList) = none
    ∧ mask_matches ("hello".toList) ["(".toList] 2 2 ['*'] = none := by
  refine ⟨rfl, by decide, by decide⟩

/-- Claim C9 as amended: configuration validation accepts every list of
rule strings without compiling anything, and a malformed rule raises its
regex error only when `mask_matches` runs during processing — every
`mask_matches` call compiles the rule list and fails exactly when some
rule is not a valid regular expression. -/
theorem C9_compile_at_mask_time (rules : List Str) (debug_echo : Bool)
    (ph content : Str) (rs rend : Nat) :
    mkParameters rules debug_echo ph rs rend = some ⟨rules, debug_echo, ph, rs, rend⟩
    ∧ (mask_matches content rules rs rend ph = none ↔ ∃ p ∈ rules, compile p = none) := by
  refine ⟨rfl, ?_⟩
  unfold mask_matches
  cases hr : compileAll rules with
  | none => simpa [hr] using (compileAll_eq_none_iff rules).mp hr
  | some cs =>
    simp only [reduceCtorEq, false_iff]
    intro hex
    rw [(compileAll_eq_none_iff rules).mpr hex] at hr
    exact absurd hr (by simp)

/-- Claim C10: with an empty pattern list `mask_matches` returns its text
unchanged, and on empty text any compilable pattern list yields the empty
string. -/
theorem C10_identity (text : Str) (patterns : List Str) (rs rend : Nat) (ph : Str)
    (h : (compileAll patterns).isSome) :
    mask_matches text [] rs rend ph = some text
    ∧ mask_matches [] patterns rs rend ph = some [] := by
  constructor
  · rfl
  · obtain ⟨cs, hcs⟩ := Option.isSome_iff_exists.mp h
    unfold mask_matches
    rw [hcs]
    simp only [foldl_pySub_nil]

/-- Witness for C10 at concrete inputs: text "hi" with no patterns, and
the compilable pattern "a" on the empty string. -/
theorem C10_witness :
    mask_matches ("hi".toList) [] 2 2 ['*'] = some ("hi".toList)
    ∧ mask_matches [] ["a".toList] 2 2 ['*'] = some [] :=
  C10_identity ("hi".toList) ["a".toList] 2 2 ['*'] (by decide)

/-!
The request side of `process` (src/patternred.py lines 103-115): the user
messages are read, joined and masked, and the masked text is written back
into the first user-role message only, because the write-back loop breaks
after the first match.
-/

/-- Message roles of the gateway SDK. -/
inductive Role where
  | user : Role
  | system : Role
  | assistant : Role
  deriving DecidableEq

/-- A prompt message: a role and its text content. -/
structure PMessage where
  role : Role
  content : Str
  deriving DecidableEq

/-- `" ".join(message.content for message in prompt.messages if
message.role == MessageRole.USER)` (src/patternred.py line 106). -/
def joinUser (msgs : List PMessage) : Str :=
  List.intercalate [' ']
    (msgs.filterMap (fun m => if m.role = Role.user then some m.content else none))

/-- The index at which the write-back loop of src/patternred.py lines
112-115 stops: the first user-role message (the list length when there is
none). -/
def firstUserIdx : List PMessage → Nat
  | [] => 0
  | m :: rest => if m.role = Role.user then 0 else firstUserIdx rest + 1

/-- The write-back loop (src/patternred.py lines 112-115): overwrite the
content of the first user-role message and break. -/
def writeBackFirstUser (masked : Str) : List PMessage → List PMessage
  | [] => []
  | m :: rest =>
    if m.role = Role.user then { m with content := masked } :: rest
    else m :: writeBackFirstUser masked rest

/-- The request side of `process` (src/patternred.py lines 106-115):
mask the joined user text and write it back into the first user message.
`none` models the `re.error` raised for an invalid rule. -/
def process_request (msgs : List PMessage) (patterns : List Str)
    (rs rend : Nat) (ph : Str) : Option (List PMessage) :=
  (mask_matches (joinUser msgs) patterns rs rend ph).map
    (fun masked => writeBackFirstUser masked msgs)

theorem writeBack_length (masked : Str) :
    ∀ msgs : List PMessage, (writeBackFirstUser masked msgs).length = msgs.length := by
  intro msgs
  induction msgs with
  | nil => rfl
  | cons m rest ih =>
    by_cases hm : m.role = Role.user <;>
      simp [writeBackFirstUser, hm, ih]

/-- Elementwise description of the write-back loop: the first user-role
message becomes the masked text, every other position is untouched. -/
theorem writeBack_getElem (masked : Str) :
    ∀ (msgs : List PMessage) (i : Nat),
      (writeBackFirstUser masked msgs)[i]? =
        if i = firstUserIdx msgs ∧ i < msgs.length
        then some { role := Role.user, content := masked }
        else msgs[i]? := by
  intro msgs
  induction msgs with
  | nil =>
    intro i
    simp [writeBackFirstUser, firstUserIdx]
  | cons m rest ih =>
    intro i
    by_cases hm : m.role = Role.user
    · simp only [writeBackFirstUser, firstUserIdx, if_pos hm]
      match i with
      | 0 =>
        obtain ⟨mr, mc⟩ := m
        simp only at hm
        simp [hm]
      | j + 1 => simp
    · simp only [writeBackFirstUser, firstUserIdx, if_neg hm]
      match i with
      | 0 => simp [Nat.add_one_ne_zero]
      | j + 1 =>
        have hcond : (j + 1 = firstUserIdx rest + 1 ∧ j + 1 < rest.length + 1)
            ↔ (j = firstUserIdx rest ∧ j < rest.length) := by omega
        simp only [List.getElem?_cons_succ, ih j, List.length_cons]
        by_cases hc : j = firstUserIdx rest ∧ j < rest.length
        · rw [if_pos hc, if_pos (hcond.mpr hc)]
        · rw [if_neg hc, if_neg (fun hr => hc (hcond.mp hr))]

/-- Claim C6: request-side redaction masks the single-space join of ALL
user-role message contents in order, writes the result into the FIRST
user-role message only, and leaves every other message — later user
messages included — exactly as it was. -/
theorem C6_request_side (msgs : List PMessage) (patterns : List Str)
    (rs rend : Nat) (ph masked : Str)
    (h : mask_matches (joinUser msgs) patterns rs rend ph = some masked) :
    process_request msgs patterns rs rend ph = some (writeBackFirstUser masked msgs)
    ∧ (writeBackFirstUser masked msgs).length = msgs.length
    ∧ (∀ i, i < msgs.length → i = firstUserIdx msgs →
        (writeBackFirstUser masked msgs)[i]? = some { role := Role.user, content := masked })
    ∧ (∀ i, i ≠ firstUserIdx msgs →
        (writeBackFirstUser masked msgs)[i]? = msgs[i]?) := by
  refine ⟨by simp [process_request, h], writeBack_length masked msgs, ?_, ?_⟩
  · intro i hlen hidx
    rw [writeBack_getElem masked msgs i, if_pos ⟨hidx, hlen⟩]
  · intro i hidx
    rw [writeBack_getElem masked msgs i, if_neg (fun hc => hidx hc.1)]

/-- Witness for C6: with no rules the mask is the identity; the joined
user text "abc xyz" lands in the first user message, the second user
message and the system message are untouched. -/
theorem C6_witness :
    process_request
        [⟨Role.system, "s".toList⟩, ⟨Role.user, "abc".toList⟩, ⟨Role.user, "xyz".toList⟩]
        [] 0 0 ['*']
      = some [⟨Role.system, "s".toList⟩, ⟨Role.user, "abc xyz".toList⟩,
              ⟨Role.user, "xyz".toList⟩] := by
  have h := C6_request_side
    [⟨Role.system, "s".toList⟩, ⟨Role.user, "abc".toList⟩, ⟨Role.user, "xyz".toList⟩]
    [] 0 0 ['*'] ("abc xyz".toList) (by decide)
  rw [h.1]
  decide

/-!
The response side of `process` (src/patternred.py lines 118-133).
-/

/-- A response choice; `message` is the text content of its message
object when that object exists. -/
structure RChoice where
  message : Option Str
  deriving DecidableEq

/-- A response object; `choices` is its list of choices when the object
exposes one. -/
structure PResponse where
  choices : Option (List RChoice)
  deriving DecidableEq

/-- The runtime errors the response side can raise. -/
inductive PyError where
  | attributeError : PyError
  | unboundLocal : PyError
  | regexError : PyError
  deriving DecidableEq

/-- The assignment loop of src/patternred.py lines 132-133: set every
choice's message content to the masked text, raising AttributeError at
the first choice without a message object. -/
def assignAll (masked : Str) : List RChoice → Except PyError (List RChoice)
  | [] => .ok []
  | c :: rest =>
    match c.message with
    | none => .error .attributeError
    | some _ =>
      match assignAll masked rest with
      | .ok rest2 => .ok ({ message := some masked } :: rest2)
      | .error e => .error e

/-- The response side of `process` (src/patternred.py lines 119-133),
with Python's control flow kept exactly: a falsy response skips the whole
block; the masked text is computed only when the response has a choices
attribute, the list is non-empty and its first choice has a message
(otherwise the local variable stays unbound); the write-back loop then
reads `response.choices` unguarded (AttributeError when absent), runs
zero times on an empty list, and otherwise evaluates the possibly-unbound
masked text (UnboundLocalError) before assigning it to every choice. -/
def process_response (resp : Option PResponse) (patterns : List Str)
    (rs rend : Nat) (ph : Str) : Except PyError (Option PResponse) :=
  match resp with
  | none => .ok none
  | some r =>
    let maskedState : Except PyError (Option Str) :=
      match r.choices with
      | some (c0 :: _) =>
        match c0.message with
        | some content =>
          match mask_matches content patterns rs rend ph with
          | some m => .ok (some m)
          | none => .error .regexError
        | none => .ok none
      | _ => .ok none
    match maskedState with
    | .error e => .error e
    | .ok maskedOpt =>
      match r.choices with
      | none => .error .attributeError
      | some [] => .ok (some r)
      | some (c :: cs) =>
        match maskedOpt with
        | none => .error .unboundLocal
        | some masked =>
          match assignAll masked (c :: cs) with
          | .ok cs2 => .ok (some { choices := some cs2 })
          | .error e => .error e

/-- When every choice has a message object, the assignment loop
broadcasts the masked text to all of them. -/
theorem assignAll_replicate (masked : Str) :
    ∀ l : List RChoice, l.all (fun c => c.message.isSome) →
      assignAll masked l = .ok (List.replicate l.length { message := some masked }) := by
  intro l
  induction l with
  | nil => intro _; rfl
  | cons c rest ih =>
    intro hall
    simp only [List.all_cons, Bool.and_eq_true] at hall
    obtain ⟨t, ht⟩ := Option.isSome_iff_exists.mp hall.1
    simp only [assignAll, ht, ih hall.2, List.length_cons, List.replicate_succ]

/-- Claim C7: when the first choice holds text and every choice has a
message, processing the response overwrites EVERY choice's content with
the masked version of the FIRST choice's original text. -/
theorem C7_broadcast (t0 : Str) (rest : List RChoice) (patterns : List Str)
    (rs rend : Nat) (ph masked : Str)
    (hall : rest.all (fun c => c.message.isSome))
    (hm : mask_matches t0 patterns rs rend ph = some masked) :
    process_response (some ⟨some ({ message := some t0 } :: rest)⟩) patterns rs rend ph
      = .ok (some ⟨some (List.replicate (rest.length + 1) { message := some masked })⟩) := by
  have hall2 : ({ message := some t0 } :: rest).all (fun c => c.message.isSome) := by
    simp [List.all_cons, hall]
  simp only [process_response, hm, assignAll_replicate masked _ hall2, List.length_cons]

/-- Witness for C7: two choices with different texts "aaa" and "bbb";
with no rules the mask is the identity and both end up holding the first
choice's text "aaa". -/
theorem C7_witness :
    process_response
        (some ⟨some [⟨some ("aaa".toList)⟩, ⟨some ("bbb".toList)⟩]⟩) [] 0 0 ['*']
      = .ok (some ⟨some (List.replicate 2 ⟨some ("aaa".toList)⟩)⟩) :=
  C7_broadcast ("aaa".toList) [⟨some ("bbb".toList)⟩] [] 0 0 ['*'] ("aaa".toList)
    (by decide) (by decide)

/-- Claim C8: refuting evaluation.  An absent response is indeed a no-op,
but a present response with no choices attribute raises AttributeError at
the unguarded `response.choices` read, and a non-empty choices list whose
first entry has no message raises UnboundLocalError because the masked
text was never bound — the code does not degrade to empty-string masking. -/
theorem C8_raises_on_deficient :
    process_response none [] 2 2 ['*'] = .ok none
    ∧ process_response (some ⟨none⟩) [] 2 2 ['*'] = .error .attributeError
    ∧ process_response (some ⟨some [⟨none⟩]⟩) [] 2 2 ['*'] = .error .unboundLocal := by
  refine ⟨rfl, rfl, rfl⟩

end PatternRed
